import Mathlib

/-!
# Verification of the gdb query-composition core

A shallow embedding, in Lean 4, of the condition/argument composition engine,
the weighted connection router, the result-mapping layer, the query cache
bypass and the transaction wrapper of the `gdb` package, together with
theorems settling the specification claims about those components.

SQL text is modelled as `List Char`.  Go `interface{}` argument values are
modelled by the inductive type `Value` below, covering the cases the binder
distinguishes by reflection: nil, numbers, strings, raw SQL fragments,
byte slices, general slices, `time.Time`, `gtime.Time`, structs implementing
the `String() string` interface, and other structs.
-/

namespace Gdb

/-- Go `interface{}` values as the argument binder distinguishes them.
`vTime` models `time.Time`/`*time.Time` (an opaque instant), `vGTime` models
`gtime.Time`/`*gtime.Time`, `vStructStr` a struct implementing `apiString`
(its payload is what `String()` returns), `vStructOpaque` any other struct. -/
inductive Value where
  | vNull : Value
  | vInt : Int → Value
  | vStr : List Char → Value
  | vRaw : List Char → Value
  | vBytes : List Nat → Value
  | vSlice : List Value → Value
  | vTime : Nat → Value
  | vGTime : Nat → Value
  | vStructStr : List Char → Value
  | vStructOpaque : Nat → Value

/-- Model of `gtime.Time.String()`: an opaque injective rendering of the
instant; the binder only forwards it, so its exact shape is irrelevant. -/
def gtimeString (t : Nat) : List Char := (toString t).data

/-- Number of `?` placeholder characters in a SQL text
(Go: `gstr.Count(s, "?")`). -/
def countQ (s : List Char) : Nat := s.countP (· = '?')

/-- Whether a SQL text contains a `?` placeholder
(Go: `gstr.Contains(s, "?")`). -/
def containsQ (s : List Char) : Bool := s.any (· = '?')

/-- Model of `strings.Index` on char lists: first index at which `pat`
occurs as a contiguous substring of `s`, or `none`. -/
def strIndex : List Char → List Char → Option Nat
  | s, pat =>
    if pat.isPrefixOf s then some 0
    else
      match s with
      | [] => none
      | _ :: t => (strIndex t pat).map (· + 1)

/-- Model of `gstr.PosI(s, pat)`: case-insensitive position of `pat` in `s`
(Go lowers both strings with `strings.ToLower`). -/
def posI (s pat : List Char) : Option Nat :=
  strIndex (s.map Char.toLower) (pat.map Char.toLower)

/-- The always-false rewriting of a query whose `IN (?)` received an empty
slice (Go `handleArguments`, the `reflectValue.Len() == 0` branch):
everything after the first case-insensitive `" WHERE "` is replaced by `0=1`;
without a `" WHERE "` the whole SQL collapses to `0=1`. -/
def falseSql (s : List Char) : List Char :=
  match posI s (" WHERE ".data) with
  | none => "0=1".data
  | some p => s.take (p + (" WHERE ".data).length) ++ "0=1".data

/-- The placeholder sequence `?,?,...,?` (`n` marks) that Go builds as
`"?" + strings.Repeat(",?", n-1)`. -/
def qExpansion (n : Nat) : List Char :=
  '?' :: (List.replicate (n - 1) [',', '?']).flatten

/-- Model of the `gregex.ReplaceStringFunc` call in `handleArguments`: the
`t`-th (1-based) `?` of `s` is replaced by `qExpansion n`; every other
character is kept.  The boolean reports whether a replacement happened
(Go's `replaced` flag, which gates the `insertHolderCount` update). -/
def expandNthQ : List Char → Nat → Nat → List Char × Bool
  | [], _, _ => ([], false)
  | c :: cs, t, n =>
    if c = '?' then
      if t = 1 then (qExpansion n ++ cs, true)
      else
        let p := expandNthQ cs (t - 1) n
        (c :: p.1, p.2)
    else
      let p := expandNthQ cs t n
      (c :: p.1, p.2)

/-- How a non-slice argument leaves `handleArguments`: `gtime` values and
structs implementing `String()` are flattened to their string form, every
other value (including `time.Time`) is forwarded unchanged. -/
def scalarOut : Value → Value
  | .vGTime t => .vStr (gtimeString t)
  | .vStructStr s => .vStr s
  | v => v

/-- An argument is scalar when it is not a general slice; scalars are
appended to the outgoing argument list one for one. -/
def isScalarArg : Value → Bool
  | .vSlice _ => false
  | _ => true

/-- The loop body of `handleArguments`, made explicit: `index` is the
position of the current argument in the original list, `total` the original
argument count (Go's `len(args)`), `sql` the SQL text rewritten so far,
`acc` the outgoing argument list and `ihc` Go's `insertHolderCount`. -/
def handleArgsLoop : List Value → Nat → Nat → List Char → List Value → Nat →
    List Char × List Value
  | [], _, _, sql, acc, _ => (sql, acc)
  | a :: rest, index, total, sql, acc, ihc =>
    match a with
    | .vBytes _ =>
      -- []byte is kept atomic (`if _, ok := arg.([]byte); ok`).
      handleArgsLoop rest (index + 1) total sql (acc ++ [a]) ihc
    | .vSlice xs =>
      if xs.length = 0 then
        -- Empty slice: rewrite the whole query to a false query and return.
        if containsQ sql then (falseSql sql, [])
        else
          if total = 1 ∧ countQ sql = 0 then
            handleArgsLoop rest (index + 1) total sql acc ihc
          else
            let p := expandNthQ sql (index + ihc + 1) 0
            handleArgsLoop rest (index + 1) total p.1 acc
              (if p.2 then ihc - 1 else ihc)
      else
        let acc' := acc ++ xs
        -- `len(args) == 1 && gstr.Count(newSql, "?") == reflectValue.Len()`:
        -- explicit per-element placeholders, expansion skipped.
        if total = 1 ∧ countQ sql = xs.length then
          handleArgsLoop rest (index + 1) total sql acc' ihc
        else
          let p := expandNthQ sql (index + ihc + 1) xs.length
          handleArgsLoop rest (index + 1) total p.1 acc'
            (if p.2 then ihc + (xs.length - 1) else ihc)
    | .vTime _ =>
      -- time.Time/*time.Time: forwarded as a typed temporal value.
      handleArgsLoop rest (index + 1) total sql (acc ++ [a]) ihc
    | .vGTime t =>
      -- gtime values are bound through their String() rendering.
      handleArgsLoop rest (index + 1) total sql (acc ++ [.vStr (gtimeString t)]) ihc
    | .vStructStr s =>
      -- struct implementing apiString: bound through its String().
      handleArgsLoop rest (index + 1) total sql (acc ++ [.vStr s]) ihc
    | .vStructOpaque _ =>
      -- any other struct: appended unchanged.
      handleArgsLoop rest (index + 1) total sql (acc ++ [a]) ihc
    | _ =>
      handleArgsLoop rest (index + 1) total sql (acc ++ [a]) ihc

/-- `handleArguments(sql, args)`: processes a SQL text and its arguments
just before they are handed to the driver (source: `handleArguments` in the
format file of the package). -/
def handleArguments (sql : List Char) (args : List Value) :
    List Char × List Value :=
  handleArgsLoop args 0 args.length sql [] 0

/-! ## String utilities of the `gstr` collaborator used by the engine -/

/-- The character set trimmed by `gstr.Trim` (its default cutset). -/
def isTrimChar (c : Char) : Bool :=
  c = ' ' ∨ c = '\t' ∨ c = '\n' ∨ c = '\r' ∨
    c = (Char.ofNat 11) ∨ c = (Char.ofNat 12) ∨ c = (Char.ofNat 0)

/-- `gstr.Trim(s)`: strips the default cutset from both ends. -/
def trimWs (s : List Char) : List Char :=
  ((s.dropWhile isTrimChar).reverse.dropWhile isTrimChar).reverse

/-- `strings.ContainsAny(s, chars)`. -/
def containsAny (s chars : List Char) : Bool :=
  s.any (fun c => chars.contains c)

/-- `gstr.ContainsI(s, sub)`: case-insensitive substring test. -/
def containsI (s sub : List Char) : Bool :=
  decide (List.IsInfix (sub.map Char.toLower) (s.map Char.toLower))

/-- The word regex `^[a-zA-Z0-9\-_]+$` (`quoteWordReg`). -/
def quoteWordMatch (s : List Char) : Bool :=
  ¬ s.isEmpty ∧ s.all (fun c => c.isAlphanum ∨ c = '-' ∨ c = '_')

/-- The regular-field-name regex `^[\w\.\-\_]+$`
(`regularFieldNameRegPattern`; RE2 `\w` is `[0-9A-Za-z_]`). -/
def regularFieldNameMatch (s : List Char) : Bool :=
  ¬ s.isEmpty ∧ s.all (fun c => c.isAlphanum ∨ c = '_' ∨ c = '.' ∨ c = '-')

/-- A character of RE2's `\s` class. -/
def isRegexSpace (c : Char) : Bool :=
  c = ' ' ∨ c = '\t' ∨ c = '\n' ∨ c = (Char.ofNat 12) ∨ c = '\r'

/-- The trailing-operator regex `[<>=]+\s*$` (`lastOperatorRegPattern`). -/
def lastOperatorMatch (s : List Char) : Bool :=
  match s.reverse.dropWhile isRegexSpace with
  | [] => false
  | c :: _ => c = '<' ∨ c = '>' ∨ c = '='

/-- `doQuoteWord(s, charLeft, charRight)`: wraps `s` in the security chars
when it is a plain word not already containing them. -/
def doQuoteWord (s cl cr : List Char) : List Char :=
  if quoteWordMatch s ∧ ¬ containsAny s (cl ++ cr) then cl ++ s ++ cr else s

/-- `gstr.SplitAndTrim(s, sep)` for a one-character separator: split,
trim each piece, drop the pieces that became empty. -/
def splitAndTrim (s : List Char) (sep : Char) : List (List Char) :=
  ((s.splitOn sep).map trimWs).filter (fun p => ¬ p.isEmpty)

/-- The per-comma-piece body of `doQuoteString`: the first space-separated
word is split on dots, its first and last dot-components are quoted, and
the piece is reassembled. -/
def doQuoteStringPiece (v1 cl cr : List Char) : List Char :=
  match splitAndTrim v1 ' ' with
  | [] => []
  | a0 :: rest =>
    let array3 := (trimWs a0).splitOn '.'
    let array3' :=
      match array3 with
      | [] => []
      | [x] => [doQuoteWord x cl cr]
      | x :: y :: ys =>
        (doQuoteWord x cl cr) ::
          ((y :: ys).dropLast ++
            [doQuoteWord ((y :: ys).getLast (List.cons_ne_nil y ys)) cl cr])
    List.intercalate [' '] ((List.intercalate ['.'] array3') :: rest)

/-- `doQuoteString(s, charLeft, charRight)`: quotes each field expression of
a comma-separated list (source: the quoting helpers of the format file). -/
def doQuoteString (s cl cr : List Char) : List Char :=
  List.intercalate [','] ((splitAndTrim s ',').map (doQuoteStringPiece · cl cr))

/-! ## `formatWhereKeyValue`: one key/value pair of a condition map -/

/-- Model of `empty.IsEmpty` on the argument universe; struct emptiness
(a reflective all-fields-zero walk in Go) is abstracted to the payload. -/
def isEmptyValue : Value → Bool
  | .vNull => true
  | .vInt n => n = 0
  | .vStr s => s.isEmpty
  | .vRaw s => s.isEmpty
  | .vBytes bs => bs.isEmpty
  | .vSlice xs => xs.isEmpty
  | .vTime t => t = 0
  | .vGTime t => t = 0
  | .vStructStr _ => false
  | .vStructOpaque k => k = 0

/-- The non-slice, non-nil branch of `formatWhereKeyValue`: the clause text
and whether the value is appended as an argument (a `Raw` value is spliced
into the text instead). -/
def formatWhereDefault (quotedKey : List Char) (key : List Char) (value : Value) :
    List Char × List Value :=
  let qk := trimWs quotedKey
  let likeTxt := " like".data
  if ¬ containsQ qk then
    if likeTxt.length < qk.length ∧
        ((qk.drop (qk.length - likeTxt.length)).map Char.toLower
          = likeTxt.map Char.toLower) then
      -- Eg: Where(g.Map{"name like": "john%"})
      finish (qk ++ " ?".data) value
    else if lastOperatorMatch qk then
      -- Eg: Where(g.Map{"age > ": 16})
      finish (qk ++ " ?".data) value
    else if regularFieldNameMatch key then
      finish (qk ++ "=?".data) value
    else
      -- Eg: Where(g.Map{"age > 16": nil}); an empty value keeps the key
      -- verbatim and binds nothing (gogf/gf issue 765).
      if isEmptyValue value then (qk, [])
      else finish (qk ++ "=?".data) value
  else
    finish qk value
where
  finish (txt : List Char) (v : Value) : List Char × List Value :=
    match v with
    | .vRaw r => (txt ++ r, [])
    | _ => (txt, [v])

/-- The slice branch of `formatWhereKeyValue` for a slice of length `len`
whose elements convert to `elems` (`gconv.Interfaces`); `whole` is the
original slice value. -/
def formatWhereSlice (quotedKey : List Char) (whole : Value)
    (len : Nat) (elems : List Value) : List Char × List Value :=
  let count := countQ quotedKey
  if count = 0 then (quotedKey ++ " IN(?)".data, [whole])
  else if ¬ count = len then (quotedKey, [whole])
  else (quotedKey, elems)

/-- `formatWhereKeyValue(db, buffer, newArgs, key, value)`: the clause text
appended for one key/value pair of a condition map, and the arguments bound
for it.  `bufNonEmpty` is `buffer.Len() > 0` (a leading `" AND "` is added
then); `cl`/`cr` are the driver's security chars (`GetChars`; the generic
core returns two empty strings). -/
def formatWhereKeyValue (cl cr : List Char) (bufNonEmpty : Bool)
    (key : List Char) (value : Value) : List Char × List Value :=
  let quotedKey := doQuoteWord key cl cr
  let pre := if bufNonEmpty then " AND ".data else ([] : List Char)
  let body :=
    match value with
    | .vSlice xs => formatWhereSlice quotedKey value xs.length xs
    | .vBytes bs =>
      -- reflect.Kind of []byte is Slice, so byte slices take the slice
      -- branch here; gconv.Interfaces yields the bytes.
      formatWhereSlice quotedKey value bs.length (bs.map (fun b => .vInt b))
    | .vNull =>
      if regularFieldNameMatch key then (quotedKey ++ " IS NULL".data, [])
      else (quotedKey, [])
    | v => formatWhereDefault quotedKey key v
  (pre ++ body.1, body.2)

/-! ## The closure-based transaction helper (`Core.Transaction`) -/

/-- Outcome of the closure `f` given to `Core.Transaction`: it returns nil,
returns an error, or panics with some value (rendered by `fmt.Errorf`). -/
inductive FuncResult where
  | ok : FuncResult
  | fail : List Char → FuncResult
  | panics : List Char → FuncResult

/-- `fmt.Errorf("%v", e)` applied to the recovered panic value. -/
def panicToError (msg : List Char) : List Char := msg

/-- What `Core.Transaction` did: the returned error, and whether
`tx.Rollback()` / `tx.Commit()` were invoked. -/
structure TxOutcome where
  err : Option (List Char)
  rolledBack : Bool
  committed : Bool

/-- `Core.Transaction(f)`: begins a transaction, runs `f`, and in the
deferred block recovers a panic into `err`, rolls back on any non-nil
`err` (a rollback error replacing it), otherwise commits (a commit error
becoming the result). -/
def coreTransaction (beginErr : Option (List Char)) (f : FuncResult)
    (rollbackErr commitErr : Option (List Char)) : TxOutcome :=
  match beginErr with
  | some e => ⟨some e, false, false⟩
  | none =>
    let err0 : Option (List Char) :=
      match f with
      | .ok => none
      | .fail e => some e
      | .panics m => some (panicToError m)
    match err0 with
    | some e =>
      match rollbackErr with
      | some re => ⟨some re, true, false⟩
      | none => ⟨some e, true, false⟩
    | none =>
      match commitErr with
      | some ce => ⟨some ce, false, true⟩
      | none => ⟨none, false, true⟩

/-! ## `Model.Delete`: soft delete, hard delete, missing-condition guard -/

/-- The statement `Model.Delete` ends up issuing. -/
inductive DeleteAction where
  | doUpdate : (table updateData condition : List Char) →
      (args : List Value) → DeleteAction
  | doDelete : (table condition : List Char) → (args : List Value) →
      DeleteAction
  | usageError : List Char → DeleteAction

/-- The fields of the model that `Model.Delete` consults: the soft-delete
column name resolved by `getSoftFieldNameDeleted` (empty when the table has
none), the `unscoped` bypass flag, the table expression and the driver's
security chars. -/
structure DeleteModel where
  softField : List Char
  unscoped : Bool
  tables : List Char
  charLeft : List Char
  charRight : List Char

/-- `Model.Delete()` (no inline condition): with a soft-delete column and no
`unscoped` bypass it issues `DoUpdate` stamping that column with the current
time; otherwise it refuses a condition without `" WHERE "` and issues
`DoDelete`.  `conditionWhere`/`conditionExtra`/`conditionArgs` are the
outputs of `formatCondition`, `now` is `gtime.Now().String()`. -/
def modelDelete (m : DeleteModel) (conditionWhere conditionExtra : List Char)
    (conditionArgs : List Value) (now : List Char) : DeleteAction :=
  if ¬ m.unscoped ∧ ¬ m.softField.isEmpty then
    .doUpdate m.tables
      (doQuoteString m.softField m.charLeft m.charRight ++ "=?".data)
      (conditionWhere ++ conditionExtra)
      (.vStr now :: conditionArgs)
  else
    let conditionStr := conditionWhere ++ conditionExtra
    if ¬ containsI conditionStr " WHERE ".data then
      .usageError "there should be WHERE condition statement for DELETE operation".data
    else
      .doDelete m.tables conditionStr conditionArgs

/-! ## The weighted connection router -/

/-- One endpoint of a configuration group; only the fields the router reads.
`Weight` is the non-negative configured weight. -/
structure ConfigNode where
  Role : List Char
  Weight : Nat

/-- The selection loop of `getConfigNodeByWeight`: `r` is the random draw,
`lo` the cumulative lower bound (`min` in the source); the first node whose
`[lo, lo + Weight*100)` range contains `r` is returned. -/
def pickNodeByRange : List ConfigNode → Nat → Nat → Option ConfigNode
  | [], _, _ => none
  | n :: rest, r, lo =>
    if lo ≤ r ∧ r < lo + n.Weight * 100 then some n
    else pickNodeByRange rest r (lo + n.Weight * 100)

/-- Sum of `Weight * 100` over a group (the `total` accumulator). -/
def totalWeight (cg : List ConfigNode) : Nat :=
  (cg.map (fun n => n.Weight * 100)).sum

/-- `getConfigNodeByWeight(cg)` with the random draw `r` made explicit
(Go draws `r := grand.N(0, total-1)`, uniform on `[0, total-1]`).  The
second component is the group as the call leaves it: when every weight was
zero the call sets each node's `Weight` to 1 in its local slice before
summing.  A group of fewer than two nodes is returned directly. -/
def getConfigNodeByWeight (cg : List ConfigNode) (r : Nat) :
    Option ConfigNode × List ConfigNode :=
  if cg.length < 2 then (cg.head?, cg)
  else
    let cg' :=
      if totalWeight cg = 0 then cg.map (fun n => { n with Weight := 1 })
      else cg
    (pickNodeByRange cg' r 0, cg')

/-- The stored configuration: group name to ordered node list
(`configs.config`). -/
abbrev ConfigMap := List (List Char × List ConfigNode)

/-- Association-list lookup for the configuration map. -/
def configLookup (cfg : ConfigMap) (group : List Char) :
    Option (List ConfigNode) :=
  match cfg with
  | [] => none
  | (g, l) :: rest => if g = group then some l else configLookup rest group

/-- `getConfigNodeByGroup(group, master)` with the random draw explicit.
The master/slave partition copies the stored nodes into fresh local lists
(Go: `append` on `[]ConfigNode` copies the node values), so the weight
defaulting inside `getConfigNodeByWeight` never reaches the stored
configuration: the second component is the configuration after the call. -/
def getConfigNodeByGroup (cfg : ConfigMap) (group : List Char)
    (master : Bool) (r : Nat) :
    Except (List Char) (Option ConfigNode) × ConfigMap :=
  match configLookup cfg group with
  | none =>
    (.error ("empty database configuration for item name ".data ++ group), cfg)
  | some list =>
    let masterList := list.filter (fun n => ¬ n.Role = "slave".data)
    let slaveList := list.filter (fun n => n.Role = "slave".data)
    if masterList.length < 1 then
      (.error "at least one master node configuration's need to make sense".data,
        cfg)
    else
      let chosen :=
        if master then getConfigNodeByWeight masterList r
        else
          getConfigNodeByWeight
            (if slaveList.length < 1 then masterList else slaveList) r
      (.ok chosen.1, cfg)

/-! ## The result mapper: `Result.Structs` and `Record.Struct` -/

/-- A database error as the mapper distinguishes it: the `sql.ErrNoRows`
sentinel or any other (driver/usage) error with its message. -/
inductive DbError where
  | noRows : DbError
  | errMsg : List Char → DbError

/-- A row: column name to value (`Record` is `map[string]Value`). -/
abbrev Record := List (List Char × Value)

/-- The reflection facts about the `pointer` handed to `Result.Structs`,
abstracted from Go's `reflect` package: whether it is a pointer, whether it
points at a slice/array, the current length of that slice, and whether its
element type is a pointer type. -/
structure StructsTarget where
  isPointer : Bool
  elemIsSliceKind : Bool
  targetLen : Nat
  itemIsPtr : Bool

/-- The conversion loop of `Result.Structs` over `n` rows: `conv i` is the
outcome of `r[i].Struct(elem)` (the tag-driven `gconv.Struct` conversion,
abstracted); the first failing row aborts with a wrapped message. -/
def structsConvLoop (conv : Nat → Option (List Char)) :
    Nat → Nat → Option DbError
  | _, 0 => none
  | i, Nat.succ k =>
    match conv i with
    | some msg =>
      some (.errMsg ("slice element conversion failed: ".data ++ msg))
    | none => structsConvLoop conv (i + 1) k

/-- `Result.Structs(pointer)`: parameter-shape checks, the zero-row
contract, then the per-row conversion loop.  With zero rows a non-empty
pointed slice of non-pointer (already initialized) elements yields
`sql.ErrNoRows`; otherwise nothing is done. -/
def resultStructs (t : StructsTarget) (r : List Record)
    (conv : Nat → Option (List Char)) : Option DbError :=
  if ¬ t.isPointer then
    some (.errMsg "parameter should be type of *[]struct/*[]*struct".data)
  else if ¬ t.elemIsSliceKind then
    some (.errMsg "parameter should be type of *[]struct/*[]*struct".data)
  else if r.length = 0 then
    if 0 < t.targetLen ∧ ¬ t.itemIsPtr then some .noRows else none
  else structsConvLoop conv 0 r.length

/-- The kind of the value a `Record.Struct` pointer points at, after one
`Elem()` dereference. -/
inductive ElemKind where
  | invalid : ElemKind
  | ptr : ElemKind
  | strukt : ElemKind
  | other : ElemKind

/-- The reflection facts about the `pointer` handed to `Record.Struct`:
`isNilTarget` is `empty.IsNil(pointer, true)`, `isReflectValue` whether the
parameter already is a `reflect.Value`, `isPointer` its kind, `elemKind`
the pointed-at kind. -/
structure StructTarget where
  isNilTarget : Bool
  isReflectValue : Bool
  isPointer : Bool
  elemKind : ElemKind

/-- `Record.Struct(pointer)`: an empty record against a non-nil target is
`sql.ErrNoRows`; otherwise the parameter shape is checked and the record is
converted (`convertMapToStruct`, abstracted as outcome `conv`). -/
def recordStruct (t : StructTarget) (r : Record)
    (conv : Option (List Char)) : Option DbError :=
  if r.length = 0 then
    if ¬ t.isNilTarget then some .noRows else none
  else if t.isReflectValue then conv.map .errMsg
  else if ¬ t.isPointer then
    some (.errMsg "parameter should be type of *struct/**struct".data)
  else
    match t.elemKind with
    | .invalid => some (.errMsg "parameter is an invalid pointer, maybe nil".data)
    | .ptr => conv.map .errMsg
    | .strukt => conv.map .errMsg
    | .other => some (.errMsg "parameter should be type of *struct/**struct".data)

/-! ## `Model.doGetAllBySql`: the query-result cache -/

/-- The state of the query cache, as a key/value association list
(the in-memory `gcache` adapter). -/
abbrev CacheState := List (List Char × List Record)

/-- `cache.GetVar(key)` on the in-memory adapter. -/
def cacheGet (c : CacheState) (k : List Char) : Option (List Record) :=
  match c with
  | [] => none
  | (k', v) :: rest => if k' = k then some v else cacheGet rest k

/-- `cache.Set(key, result, duration)` on the in-memory adapter. -/
def cacheSet (c : CacheState) (k : List Char) (v : List Record) : CacheState :=
  match c with
  | [] => [(k, v)]
  | (k', v') :: rest =>
    if k' = k then (k, v) :: rest else (k', v') :: cacheSet rest k v

/-- `cache.Remove(key)` on the in-memory adapter. -/
def cacheRemove (c : CacheState) (k : List Char) : CacheState :=
  c.filter (fun e => ¬ e.1 = k)

/-- The fields of the model that `doGetAllBySql` consults: whether
`Cache(...)` was chained, whether the model is bound to an open transaction
(`m.tx != nil`), the explicit cache name and the cache duration. -/
structure QueryModel where
  cacheEnabled : Bool
  inTx : Bool
  cacheName : List Char
  cacheDuration : Int

/-- `Model.doGetAllBySql(sql, args...)`: consults the cache only when
caching is enabled and the model is not on a transaction; on a miss (or a
bypass) executes against the database and, with a non-empty cache key and a
successful read, removes (negative duration) or stores the result.
`dbExec` is the outcome of `m.db.DoGetAll`; `argsStr` is
`gconv.String(args)`.  Returns the query outcome, the cache afterwards, and
whether the statement was executed against the database. -/
def doGetAllBySql (m : QueryModel) (cache : CacheState)
    (sqlText argsStr : List Char) (dbExec : Except DbError (List Record)) :
    Except DbError (List Record) × CacheState × Bool :=
  let cacheKey : List Char :=
    if m.cacheEnabled ∧ ¬ m.inTx then
      if m.cacheName.length = 0 then
        sqlText ++ ", @PARAMS:".data ++ argsStr
      else m.cacheName
    else []
  let cached : Option (List Record) :=
    if m.cacheEnabled ∧ ¬ m.inTx then cacheGet cache cacheKey else none
  match cached with
  | some res => (.ok res, cache, false)
  | none =>
    match dbExec with
    | .error e => (.error e, cache, true)
    | .ok res =>
      if ¬ cacheKey.isEmpty then
        if m.cacheDuration < 0 then (.ok res, cacheRemove cache cacheKey, true)
        else (.ok res, cacheSet cache cacheKey res, true)
      else (.ok res, cache, true)

/-! ## Single-record queries: `Core.One` and `Model.One` -/

/-- `Core.One(sql, args...)`: runs `All` and returns its first record, or
nil with a nil error when the result set is empty. -/
def coreOne (all : Except DbError (List Record)) :
    Except DbError (Option Record) :=
  match all with
  | .error e => .error e
  | .ok list => .ok list.head?

/-- `Model.One()`: runs `doGetAll` (which reaches `doGetAllBySql`) and
returns the first record, or nil with a nil error on an empty result. -/
def modelOne (m : QueryModel) (cache : CacheState)
    (sqlText argsStr : List Char) (dbExec : Except DbError (List Record)) :
    Except DbError (Option Record) :=
  match (doGetAllBySql m cache sqlText argsStr dbExec).1 with
  | .error e => .error e
  | .ok list => .ok list.head?

/-! ## Classification helpers used only to state claims -/

/-- Whether a value is a SQL-engine primitive after binding (number, string,
raw text, byte string or nil); slices, time values and structs are not. -/
def isPrimitiveValue : Value → Bool
  | .vNull => true
  | .vInt _ => true
  | .vStr _ => true
  | .vRaw _ => true
  | .vBytes _ => true
  | _ => false

/-- Whether a value is struct-shaped for the binder
(Go: `reflectKind == reflect.Struct`). -/
def isStructShapedArg : Value → Bool
  | .vTime _ => true
  | .vGTime _ => true
  | .vStructStr _ => true
  | .vStructOpaque _ => true
  | _ => false

/-- Whether a value is a standard-library time value
(`time.Time`/`*time.Time`). -/
def isStdTimeArg : Value → Bool
  | .vTime _ => true
  | _ => false

/-! ## Lemmas about the binder loop -/

/-- Processing one scalar (non-slice) argument appends `scalarOut` of it
and leaves the SQL text and the holder counter unchanged. -/
theorem handleArgsLoop_cons_scalar (a : Value) (l : List Value)
    (index total : Nat) (sql : List Char) (acc : List Value) (ihc : Nat)
    (ha : isScalarArg a = true) :
    handleArgsLoop (a :: l) index total sql acc ihc
      = handleArgsLoop l (index + 1) total sql (acc ++ [scalarOut a]) ihc := by
  cases a <;> first | rfl | simp [isScalarArg] at ha

/-- Processing a block of scalar arguments appends their `scalarOut` images
in order and leaves the SQL text and the holder counter unchanged. -/
theorem handleArgsLoop_scalars (pre : List Value) :
    ∀ (rest : List Value) (index total : Nat) (sql : List Char)
      (acc : List Value) (ihc : Nat),
      (∀ a ∈ pre, isScalarArg a = true) →
      handleArgsLoop (pre ++ rest) index total sql acc ihc
        = handleArgsLoop rest (index + pre.length) total sql
            (acc ++ pre.map scalarOut) ihc := by
  induction pre with
  | nil => intro rest index total sql acc ihc _; simp
  | cons a pre' ih =>
    intro rest index total sql acc ihc h
    have ha : isScalarArg a = true := h a (List.mem_cons_self a pre')
    have h' : ∀ b ∈ pre', isScalarArg b = true :=
      fun b hb => h b (List.mem_cons_of_mem a hb)
    rw [List.cons_append, handleArgsLoop_cons_scalar a _ _ _ _ _ _ ha,
      ih rest (index + 1) total sql (acc ++ [scalarOut a]) ihc h']
    congr 1
    · simp only [List.length_cons]; omega
    · simp

/-! ## Claim theorems -/

/-- C3: for every closure handed to `Core.Transaction`: a returned error
rolls the transaction back and is surfaced; a panic is recovered, converted
to an error, and still rolls back; a nil return commits and returns nil; and
a failing rollback overrides and propagates in place of the original
error. -/
theorem c3_transaction_semantics (e m re c : List Char) :
    coreTransaction none (.fail e) none (some c) = ⟨some e, true, false⟩
    ∧ coreTransaction none (.panics m) none (some c)
        = ⟨some (panicToError m), true, false⟩
    ∧ coreTransaction none .ok none none = ⟨none, false, true⟩
    ∧ coreTransaction none (.fail e) (some re) (some c)
        = ⟨some re, true, false⟩
    ∧ coreTransaction none (.panics m) (some re) (some c)
        = ⟨some re, true, false⟩ :=
  ⟨rfl, rfl, rfl, rfl, rfl⟩

/-- C9 (counterexample): a struct-shaped argument that carries no string
conversion and is not a time value is forwarded by the binder unchanged —
it is not flattened to a primitive, refuting the claim that every non-time
structured argument is flattened. -/
theorem c9_counterexample :
    (handleArguments "?".data [Value.vStructOpaque 7]).2
      = [Value.vStructOpaque 7]
    ∧ isStructShapedArg (Value.vStructOpaque 7) = true
    ∧ isStdTimeArg (Value.vStructOpaque 7) = false
    ∧ isPrimitiveValue (Value.vStructOpaque 7) = false :=
  ⟨rfl, rfl, rfl, rfl⟩

/-- C9 (amended): on a list of non-slice arguments the binder leaves the
SQL unchanged and maps each argument through `scalarOut`: `gtime` values
and structs implementing `String()` are flattened to their string form,
standard `time.Time` values are preserved as typed temporal values, and
structs with neither capability pass through unchanged. -/
theorem c9_struct_argument_flattening (sql : List Char) (args : List Value)
    (t : Nat) (s : List Char) (k : Nat)
    (h : ∀ a ∈ args, isScalarArg a = true) :
    handleArguments sql args = (sql, args.map scalarOut)
    ∧ scalarOut (.vTime t) = .vTime t
    ∧ scalarOut (.vGTime t) = .vStr (gtimeString t)
    ∧ scalarOut (.vStructStr s) = .vStr s
    ∧ scalarOut (.vStructOpaque k) = .vStructOpaque k := by
  refine ⟨?_, rfl, rfl, rfl, rfl⟩
  have := handleArgsLoop_scalars args [] 0 args.length sql [] 0 h
  simpa [handleArguments] using this

/-- C9 (witness): the amended claim applied to one argument of each struct
shape. -/
theorem c9_witness :
    handleArguments "a=? AND b=? AND c=? AND d=?".data
        [Value.vTime 5, Value.vGTime 6, Value.vStructStr "x".data,
          Value.vStructOpaque 9]
      = ("a=? AND b=? AND c=? AND d=?".data,
          [Value.vTime 5, Value.vStr (gtimeString 6), Value.vStr "x".data,
            Value.vStructOpaque 9]) :=
  (c9_struct_argument_flattening _ _ 5 "x".data 9
    (by intro a ha; fin_cases ha <;> rfl)).1

/-- C8: a cache-enabled select on a model bound to an open transaction
bypasses the query cache entirely: the result is the database outcome, the
cache is left untouched (independent of its contents), and the statement is
executed against the database. -/
theorem c8_cache_bypassed_in_tx (m : QueryModel) (cache : CacheState)
    (sqlText argsStr : List Char) (dbExec : Except DbError (List Record))
    (h : m.inTx = true) :
    doGetAllBySql m cache sqlText argsStr dbExec = (dbExec, cache, true) := by
  unfold doGetAllBySql
  cases dbExec <;> simp [h]

/-- C8 (witness): a transaction-bound cache-enabled read with a populated
cache still returns the database outcome and leaves the cache alone. -/
theorem c8_witness :
    doGetAllBySql ⟨true, true, "nm".data, 10⟩ [("nm".data, [[]])]
        "select 1".data "[]".data (.ok [])
      = (.ok [], [("nm".data, [[]])], true) :=
  c8_cache_bypassed_in_tx _ _ _ _ _ rfl

/-- C10: a single-record query over an empty, error-free result set returns
a nil record with a nil error, both at the `Core` and the `Model` level; a
record-returning query never produces an error of its own on a successful
driver read, and the "no rows" sentinel only appears at struct-mapping
time. -/
theorem c10_one_empty_result (m : QueryModel) (cache : CacheState)
    (sqlText argsStr : List Char) (dbExec : Except DbError (List Record))
    (list : List Record) (t : StructTarget) (conv : Option (List Char))
    (h : (doGetAllBySql m cache sqlText argsStr dbExec).1 = .ok [])
    (ht : t.isNilTarget = false) :
    coreOne (.ok []) = .ok none
    ∧ modelOne m cache sqlText argsStr dbExec = .ok none
    ∧ (∀ e : DbError, coreOne (.ok list) ≠ .error e)
    ∧ recordStruct t [] conv = some .noRows := by
  refine ⟨rfl, ?_, ?_, ?_⟩
  · unfold modelOne
    rw [h]
    rfl
  · intro e hcontra
    simp [coreOne] at hcontra
  · simp [recordStruct, ht]

/-- C10 (witness): the theorem at an uncached model with an empty database
result and a non-nil struct target. -/
theorem c10_witness :
    coreOne (.ok []) = .ok none
    ∧ modelOne ⟨false, false, [], 0⟩ [] "q".data "[]".data (.ok []) = .ok none
    ∧ (∀ e : DbError, coreOne (.ok ([] : List Record)) ≠ .error e)
    ∧ recordStruct ⟨false, false, true, .strukt⟩ [] none = some .noRows :=
  c10_one_empty_result ⟨false, false, [], 0⟩ [] "q".data "[]".data (.ok [])
    [] ⟨false, false, true, .strukt⟩ none rfl rfl

/-- C7 (counterexample): mapping a zero-row result set onto a non-empty
target slice whose elements are non-pointer structs returns the "no rows"
error, refuting the claim that it is always a no-op without error. -/
theorem c7_counterexample :
    resultStructs ⟨true, true, 1, false⟩ [] (fun _ => none) = some .noRows
    ∧ resultStructs ⟨true, true, 1, false⟩ [] (fun _ => none)
        ≠ none := by
  have hval : resultStructs ⟨true, true, 1, false⟩ [] (fun _ => none)
      = some .noRows := rfl
  exact ⟨hval, by rw [hval]; simp⟩

/-- C7 (amended): mapping zero rows onto a pointed-to slice returns "no
rows" exactly when the slice is non-empty with non-pointer (already
initialized) elements and no error otherwise, while mapping zero rows onto
a non-nil single-record pointer target always returns the "no rows"
sentinel, distinguishable from a driver failure. -/
theorem c7_zero_rows_contract (t : StructsTarget)
    (conv : Nat → Option (List Char)) (t' : StructTarget)
    (conv' : Option (List Char))
    (h1 : t.isPointer = true) (h2 : t.elemIsSliceKind = true)
    (h3 : t'.isNilTarget = false) :
    resultStructs t [] conv
      = (if 0 < t.targetLen ∧ t.itemIsPtr = false then some .noRows else none)
    ∧ recordStruct t' [] conv' = some .noRows := by
  constructor
  · simp [resultStructs, h1, h2]
  · simp [recordStruct, h3]

/-- C7 (witness): the amended contract at a non-empty pointer-element
target (no error) and at a non-nil single-record target (no rows). -/
theorem c7_witness :
    resultStructs ⟨true, true, 3, true⟩ [] (fun _ => none)
      = (if 0 < 3 ∧ true = false then some DbError.noRows else none)
    ∧ recordStruct ⟨false, true, true, .ptr⟩ [] none = some .noRows :=
  c7_zero_rows_contract ⟨true, true, 3, true⟩ (fun _ => none)
    ⟨false, true, true, .ptr⟩ none rfl rfl rfl

/-- C4: a delete on a table with a soft-delete column and no `unscoped`
bypass becomes an update stamping that column; without a soft-delete column
a physical delete is issued, and a composed condition without a `WHERE`
clause raises the missing-condition usage error instead of executing. -/
theorem c4_delete_soft_and_guard (m : DeleteModel)
    (cw ce : List Char) (ca : List Value) (now : List Char)
    (hu : m.unscoped = false) (hs : ¬ m.softField.isEmpty = true)
    (m' : DeleteModel) (hs' : m'.softField.isEmpty = true) :
    modelDelete m cw ce ca now
      = .doUpdate m.tables
          (doQuoteString m.softField m.charLeft m.charRight ++ "=?".data)
          (cw ++ ce) (.vStr now :: ca)
    ∧ (containsI (cw ++ ce) " WHERE ".data = true →
        modelDelete m' cw ce ca now = .doDelete m'.tables (cw ++ ce) ca)
    ∧ (containsI (cw ++ ce) " WHERE ".data = false →
        modelDelete m' cw ce ca now
          = .usageError
              "there should be WHERE condition statement for DELETE operation".data) := by
  refine ⟨?_, ?_, ?_⟩
  · simp [modelDelete, hu, hs]
  · intro hw
    simp [modelDelete, hs', hw]
  · intro hw
    simp [modelDelete, hs', hw]

/-- C4 (witness): the theorem at a soft-delete table, and at a plain table
with and without a composed `WHERE` clause. -/
theorem c4_witness :
    modelDelete ⟨"deleted_at".data, false, "user".data, [], []⟩
        " WHERE id=?".data [] [.vInt 1] "2020-01-01 00:00:00".data
      = .doUpdate "user".data
          (doQuoteString "deleted_at".data [] [] ++ "=?".data)
          (" WHERE id=?".data ++ []) (.vStr "2020-01-01 00:00:00".data :: [.vInt 1])
    ∧ modelDelete ⟨[], false, "user".data, [], []⟩
        " WHERE id=?".data [] [.vInt 1] "2020-01-01 00:00:00".data
      = .doDelete "user".data (" WHERE id=?".data ++ []) [.vInt 1]
    ∧ modelDelete ⟨[], false, "user".data, [], []⟩
        [] [] [.vInt 1] "2020-01-01 00:00:00".data
      = .usageError
          "there should be WHERE condition statement for DELETE operation".data := by
  refine ⟨?_, ?_, ?_⟩
  · exact (c4_delete_soft_and_guard
      ⟨"deleted_at".data, false, "user".data, [], []⟩ " WHERE id=?".data []
      [.vInt 1] "2020-01-01 00:00:00".data rfl (by decide)
      ⟨[], false, "user".data, [], []⟩ rfl).1
  · exact (c4_delete_soft_and_guard
      ⟨"deleted_at".data, false, "user".data, [], []⟩ " WHERE id=?".data []
      [.vInt 1] "2020-01-01 00:00:00".data rfl (by decide)
      ⟨[], false, "user".data, [], []⟩ rfl).2.1 (by decide)
  · exact (c4_delete_soft_and_guard
      ⟨"deleted_at".data, false, "user".data, [], []⟩ [] []
      [.vInt 1] "2020-01-01 00:00:00".data rfl (by decide)
      ⟨[], false, "user".data, [], []⟩ rfl).2.2 (by decide)

/-- Quoting with the generic core's empty security chars is the
identity. -/
theorem doQuoteWord_nil_chars (s : List Char) : doQuoteWord s [] [] = s := by
  unfold doQuoteWord
  split <;> simp

/-- A regular field name contains no `?` placeholder. -/
theorem countQ_eq_zero_of_regular (key : List Char)
    (h : regularFieldNameMatch key = true) : countQ key = 0 := by
  unfold regularFieldNameMatch at h
  simp only [Bool.and_eq_true, List.all_eq_true, decide_eq_true_eq] at h
  unfold countQ
  rw [List.countP_eq_zero]
  intro c hc
  intro hq
  rw [decide_eq_true_eq] at hq
  subst hq
  rcases h.2 '?' hc with halnum | h1 | h1 | h1
  · simp [Char.isAlphanum, Char.isAlpha, Char.isUpper, Char.isLower,
      Char.isDigit] at halnum
  · simp at h1
  · simp at h1
  · simp at h1

/-- C5 (counterexample): a slice value on the plain field name `id`
composes to the clause text `id IN(?)` — with no space before the
parenthesis — not to `id IN (?)` as the claim states. -/
theorem c5_counterexample :
    (formatWhereKeyValue [] [] false "id".data
        (.vSlice [.vInt 1, .vInt 2, .vInt 3])).1 = "id IN(?)".data
    ∧ (formatWhereKeyValue [] [] false "id".data
        (.vSlice [.vInt 1, .vInt 2, .vInt 3])).1 ≠ "id IN (?)".data :=
  ⟨rfl, by decide⟩

/-- C5 (amended): on a plain field-name key a nil value composes to
`<field> IS NULL` with no bound argument, and a slice value composes to
`<field> IN(?)` with the whole slice bound as a single argument group. -/
theorem c5_condition_map_nil_and_slice (key : List Char) (xs : List Value)
    (h : regularFieldNameMatch key = true) :
    formatWhereKeyValue [] [] false key .vNull = (key ++ " IS NULL".data, [])
    ∧ formatWhereKeyValue [] [] false key (.vSlice xs)
        = (key ++ " IN(?)".data, [.vSlice xs]) := by
  constructor
  · simp [formatWhereKeyValue, doQuoteWord_nil_chars, h]
  · simp [formatWhereKeyValue, formatWhereSlice, doQuoteWord_nil_chars,
      countQ_eq_zero_of_regular key h]

/-- C5 (witness): the amended claim at the key `id` with the slice
`[1,2,3]`. -/
theorem c5_witness :
    formatWhereKeyValue [] [] false "id".data .vNull
      = ("id".data ++ " IS NULL".data, [])
    ∧ formatWhereKeyValue [] [] false "id".data
        (.vSlice [.vInt 1, .vInt 2, .vInt 3])
      = ("id".data ++ " IN(?)".data, [.vSlice [.vInt 1, .vInt 2, .vInt 3]]) :=
  c5_condition_map_nil_and_slice "id".data [.vInt 1, .vInt 2, .vInt 3]
    (by decide)

/-! ## Lemmas about the weighted router -/

/-- The group as `getConfigNodeByWeight` uses it after the all-zero-weight
defaulting. -/
def defaultedGroup (cg : List ConfigNode) : List ConfigNode :=
  if totalWeight cg = 0 then cg.map (fun n => { n with Weight := 1 }) else cg

/-- Cumulative weight bound: the sum of `Weight * 100` over the first `i`
nodes (the `min` value of the selection loop when it reaches node `i`). -/
def cumWeight (cg : List ConfigNode) (i : Nat) : Nat :=
  ((cg.take i).map (fun n => n.Weight * 100)).sum

theorem getConfigNodeByWeight_eq (cg : List ConfigNode) (r : Nat)
    (h2 : 2 ≤ cg.length) :
    getConfigNodeByWeight cg r
      = (pickNodeByRange (defaultedGroup cg) r 0, defaultedGroup cg) := by
  unfold getConfigNodeByWeight defaultedGroup
  rw [if_neg (by omega)]

theorem cumWeight_zero (cg : List ConfigNode) : cumWeight cg 0 = 0 := rfl

theorem cumWeight_cons_succ (n : ConfigNode) (rest : List ConfigNode)
    (j : Nat) :
    cumWeight (n :: rest) (j + 1) = n.Weight * 100 + cumWeight rest j := by
  simp [cumWeight]

theorem cumWeight_total (cg : List ConfigNode) :
    cumWeight cg cg.length = totalWeight cg := by
  simp [cumWeight, totalWeight]

theorem cumWeight_le_total (cg : List ConfigNode) (i : Nat)
    (h : i ≤ cg.length) : cumWeight cg i ≤ totalWeight cg := by
  induction cg generalizing i with
  | nil =>
    simp only [List.length_nil, Nat.le_zero] at h
    subst h
    simp [cumWeight, totalWeight]
  | cons n rest ih =>
    cases i with
    | zero => simp [cumWeight, totalWeight]
    | succ j =>
      rw [cumWeight_cons_succ]
      have : totalWeight (n :: rest) = n.Weight * 100 + totalWeight rest := by
        simp [totalWeight]
      rw [this]
      have hj : j ≤ rest.length := by simpa using h
      exact Nat.add_le_add_left (ih j hj) _

theorem cumWeight_succ_get (cg : List ConfigNode) (i : Nat)
    (h : i < cg.length) :
    cumWeight cg (i + 1) = cumWeight cg i + (cg.get ⟨i, h⟩).Weight * 100 := by
  induction cg generalizing i with
  | nil => simp at h
  | cons n rest ih =>
    cases i with
    | zero => simp [cumWeight]
    | succ j =>
      rw [cumWeight_cons_succ, cumWeight_cons_succ,
        ih j (by simpa using h)]
      simp [Nat.add_assoc]

/-- The selection loop maps a draw inside node `i`'s cumulative range to
exactly node `i`. -/
theorem pickNodeByRange_spec (l : List ConfigNode) :
    ∀ (i : Nat) (h : i < l.length) (r lo : Nat),
      lo + cumWeight l i ≤ r → r < lo + cumWeight l (i + 1) →
      pickNodeByRange l r lo = some (l.get ⟨i, h⟩) := by
  induction l with
  | nil => intro i h; simp at h
  | cons n rest ih =>
    intro i h r lo hlo hhi
    cases i with
    | zero =>
      rw [cumWeight_zero, Nat.add_zero] at hlo
      rw [cumWeight_cons_succ, cumWeight_zero, Nat.add_zero] at hhi
      unfold pickNodeByRange
      rw [if_pos ⟨hlo, by omega⟩]
      rfl
    | succ j =>
      rw [cumWeight_cons_succ] at hlo hhi
      have hj : j < rest.length := by simpa using h
      unfold pickNodeByRange
      rw [if_neg (by omega)]
      have := ih j hj r (lo + n.Weight * 100) (by omega) (by omega)
      rw [this]
      rfl

/-- C6 (counterexample): the weight defaulting is not visible to subsequent
calls: the selector is only ever handed fresh per-call copies of the stored
nodes, so after a group-level selection on an all-zero-weight group the
stored configuration still carries zero weights, even though the call
itself selected with the defaulted weight 1. -/
theorem c6_counterexample :
    (getConfigNodeByGroup
        [("db".data, [⟨"master".data, 0⟩, ⟨"master".data, 0⟩])]
        "db".data true 0).2
      = [("db".data, [⟨"master".data, 0⟩, ⟨"master".data, 0⟩])]
    ∧ configLookup
        ((getConfigNodeByGroup
            [("db".data, [⟨"master".data, 0⟩, ⟨"master".data, 0⟩])]
            "db".data true 0).2) "db".data
      = some [⟨"master".data, 0⟩, ⟨"master".data, 0⟩]
    ∧ (getConfigNodeByWeight [⟨"master".data, 0⟩, ⟨"master".data, 0⟩] 0).1
      = some ⟨"master".data, 1⟩ :=
  ⟨rfl, rfl, rfl⟩

/-- C6 (amended): each candidate's weight is multiplied by 100 and summed;
if every weight is zero all weights default to 1 in the call's local copy
of the group (the stored configuration is unchanged for subsequent calls);
a draw `r` in `[0, total-1]` selects exactly the node whose cumulative
weight range contains `r`, and the number of draws selecting node `i` is
its weight × 100, realizing selection frequency proportional to the weight
share. -/
theorem c6_weighted_selection (cg : List ConfigNode) (r i : Nat)
    (h2 : 2 ≤ cg.length) (hi : i < (defaultedGroup cg).length)
    (hlo : cumWeight (defaultedGroup cg) i ≤ r)
    (hhi : r < cumWeight (defaultedGroup cg) (i + 1)) :
    (getConfigNodeByWeight cg r).1
      = some ((defaultedGroup cg).get ⟨i, hi⟩)
    ∧ (totalWeight cg = 0 → ∀ n ∈ (getConfigNodeByWeight cg r).2,
        n.Weight = 1)
    ∧ ((Finset.range (totalWeight (defaultedGroup cg))).filter
          (fun x => cumWeight (defaultedGroup cg) i ≤ x
            ∧ x < cumWeight (defaultedGroup cg) (i + 1))).card
        = ((defaultedGroup cg).get ⟨i, hi⟩).Weight * 100 := by
  refine ⟨?_, ?_, ?_⟩
  · rw [getConfigNodeByWeight_eq cg r h2]
    exact pickNodeByRange_spec (defaultedGroup cg) i hi r 0
      (by omega) (by omega)
  · intro hz n hn
    rw [getConfigNodeByWeight_eq cg r h2] at hn
    simp only [defaultedGroup, if_pos hz, List.mem_map] at hn
    obtain ⟨n', _, hn'⟩ := hn
    rw [← hn']
  · have hsub : cumWeight (defaultedGroup cg) (i + 1)
        ≤ totalWeight (defaultedGroup cg) :=
      cumWeight_le_total _ _ (by omega)
    have : (Finset.range (totalWeight (defaultedGroup cg))).filter
        (fun x => cumWeight (defaultedGroup cg) i ≤ x
          ∧ x < cumWeight (defaultedGroup cg) (i + 1))
        = Finset.Ico (cumWeight (defaultedGroup cg) i)
            (cumWeight (defaultedGroup cg) (i + 1)) := by
      ext x
      simp only [Finset.mem_filter, Finset.mem_range, Finset.mem_Ico]
      omega
    rw [this, Nat.card_Ico, cumWeight_succ_get (defaultedGroup cg) i hi]
    omega

/-- C6 (witness): a two-node group of weights 1 and 1; the draw 100 lands
in the second node's range `[100, 200)`, whose 100 draws out of 200 realize
its one-half share. -/
theorem c6_witness :
    (getConfigNodeByWeight
        [⟨"master".data, 1⟩, ⟨"slave".data, 1⟩] 100).1
      = some ((defaultedGroup
          [⟨"master".data, 1⟩, ⟨"slave".data, 1⟩]).get ⟨1, by decide⟩)
    ∧ (totalWeight [⟨"master".data, 1⟩, ⟨"slave".data, 1⟩] = 0 →
        ∀ n ∈ (getConfigNodeByWeight
            [⟨"master".data, 1⟩, ⟨"slave".data, 1⟩] 100).2, n.Weight = 1)
    ∧ ((Finset.range (totalWeight (defaultedGroup
          [⟨"master".data, 1⟩, ⟨"slave".data, 1⟩]))).filter
          (fun x => cumWeight (defaultedGroup
              [⟨"master".data, 1⟩, ⟨"slave".data, 1⟩]) 1 ≤ x
            ∧ x < cumWeight (defaultedGroup
              [⟨"master".data, 1⟩, ⟨"slave".data, 1⟩]) 2)).card
        = ((defaultedGroup
            [⟨"master".data, 1⟩, ⟨"slave".data, 1⟩]).get
              ⟨1, by decide⟩).Weight * 100 :=
  c6_weighted_selection [⟨"master".data, 1⟩, ⟨"slave".data, 1⟩] 100 1
    (by decide) (by decide) (by decide) (by decide)

/-! ## Lemmas about placeholder counting and expansion -/

theorem countQ_nil : countQ [] = 0 := rfl

theorem countQ_cons (c : Char) (cs : List Char) :
    countQ (c :: cs) = countQ cs + (if c = '?' then 1 else 0) := by
  simp [countQ, List.countP_cons]

theorem countQ_flatten_replicate (m : Nat) :
    countQ ((List.replicate m ([',', '?'] : List Char)).flatten) = m := by
  induction m with
  | zero => rfl
  | succ k ih =>
    rw [List.replicate_succ, List.flatten_cons]
    simp only [countQ, List.countP_append] at *
    rw [ih]
    have hone : List.countP (fun x => decide (x = '?')) [',', '?'] = 1 := by
      decide
    omega

/-- The expansion text for `n ≥ 1` elements holds exactly `n`
placeholders. -/
theorem qExpansion_countQ (n : Nat) (h : 1 ≤ n) :
    countQ (qExpansion n) = n := by
  unfold qExpansion
  rw [countQ_cons, countQ_flatten_replicate]
  simp
  omega

/-- Replacing the `(countQ u + 1)`-th placeholder of `u ++ '?' :: v`
rewrites exactly the displayed `?` into the `n`-placeholder expansion. -/
theorem expandNthQ_split (u : List Char) :
    ∀ (v : List Char) (n : Nat),
      expandNthQ (u ++ '?' :: v) (countQ u + 1) n
        = (u ++ qExpansion n ++ v, true) := by
  induction u with
  | nil =>
    intro v n
    simp [expandNthQ, countQ]
  | cons c u' ih =>
    intro v n
    by_cases hc : c = '?'
    · subst hc
      rw [countQ_cons]
      simp only [if_pos rfl]
      show expandNthQ ('?' :: (u' ++ '?' :: v)) (countQ u' + 1 + 1) n = _
      unfold expandNthQ
      rw [if_pos rfl, if_neg (by omega)]
      simp only [Nat.add_sub_cancel, ih v n]
      simp
    · rw [countQ_cons]
      simp only [if_neg hc, Nat.add_zero]
      show expandNthQ (c :: (u' ++ '?' :: v)) (countQ u' + 1) n = _
      unfold expandNthQ
      rw [if_neg hc]
      simp only [ih v n]
      simp

/-- The placeholder-expansion rewrite never removes the last `?`. -/
theorem expandNthQ_contains (s : List Char) :
    ∀ (t n : Nat), containsQ s = true →
      containsQ (expandNthQ s t n).1 = true := by
  induction s with
  | nil => intro t n h; simp [containsQ] at h
  | cons c cs ih =>
    intro t n h
    by_cases hc : c = '?'
    · subst hc
      by_cases ht : t = 1
      · subst ht
        simp [expandNthQ, containsQ, qExpansion]
      · simp [expandNthQ, ht, containsQ]
    · have h' : containsQ cs = true := by
        simpa [containsQ, hc] using h
      have hres := ih t n h'
      simp only [expandNthQ, if_neg hc]
      simp only [containsQ] at hres ⊢
      simp [hc, hres]

/-- The false-query rewrite always ends in the text `0=1`. -/
theorem falseSql_eq_append (s : List Char) :
    ∃ x : List Char, falseSql s = x ++ "0=1".data := by
  unfold falseSql
  cases posI s (" WHERE ".data) with
  | none => exact ⟨[], rfl⟩
  | some p => exact ⟨_, rfl⟩

/-- The loop invariant behind claim C2: as long as the SQL text still holds
a placeholder, reaching an empty non-byte slice argument rewrites the whole
query to the false query and discards every bound argument. -/
theorem handleArgsLoop_empty_slice (args : List Value) :
    ∀ (index total : Nat) (sql : List Char) (acc : List Value) (ihc : Nat),
      containsQ sql = true → Value.vSlice [] ∈ args →
      (handleArgsLoop args index total sql acc ihc).2 = []
      ∧ List.IsInfix "0=1".data
          (handleArgsLoop args index total sql acc ihc).1 := by
  induction args with
  | nil => intro _ _ _ _ _ _ hmem; simp at hmem
  | cons a rest ih =>
    intro index total sql acc ihc hq hmem
    by_cases hslice : ∃ ys, a = Value.vSlice ys
    · obtain ⟨ys, rfl⟩ := hslice
      by_cases hy : ys.length = 0
      · have hye : ys = [] := List.length_eq_zero.mp hy
        subst hye
        have hstep : handleArgsLoop (Value.vSlice [] :: rest) index total sql
            acc ihc = (falseSql sql, []) := by
          simp [handleArgsLoop, hq]
        rw [hstep]
        obtain ⟨x, hx⟩ := falseSql_eq_append sql
        exact ⟨rfl, ⟨x, [], by rw [hx]; simp⟩⟩
      · have hrest : Value.vSlice [] ∈ rest := by
          rcases List.mem_cons.mp hmem with heq | hr
          · exfalso
            injection heq with h
            exact hy (by rw [← h]; rfl)
          · exact hr
        by_cases hskip : total = 1 ∧ countQ sql = ys.length
        · have hstep : handleArgsLoop (Value.vSlice ys :: rest) index total sql
              acc ihc
              = handleArgsLoop rest (index + 1) total sql (acc ++ ys) ihc := by
            simp [handleArgsLoop, hy, hskip]
          rw [hstep]
          exact ih _ _ _ _ _ hq hrest
        · have hstep : handleArgsLoop (Value.vSlice ys :: rest) index total sql
              acc ihc
              = handleArgsLoop rest (index + 1) total
                  (expandNthQ sql (index + ihc + 1) ys.length).1 (acc ++ ys)
                  (if (expandNthQ sql (index + ihc + 1) ys.length).2 then
                    ihc + (ys.length - 1) else ihc) := by
            simp [handleArgsLoop, hy, hskip]
          rw [hstep]
          exact ih _ _ _ _ _ (expandNthQ_contains sql _ _ hq) hrest
    · have ha : isScalarArg a = true := by
        cases a <;> first | rfl | (exact absurd ⟨_, rfl⟩ hslice)
      have hrest : Value.vSlice [] ∈ rest := by
        rcases List.mem_cons.mp hmem with heq | hr
        · exact absurd ⟨[], heq.symm⟩ hslice
        · exact hr
      rw [handleArgsLoop_cons_scalar a rest index total sql acc ihc ha]
      exact ih _ _ _ _ _ hq hrest

theorem handleArgsLoop_nil (index total : Nat) (sql : List Char)
    (acc : List Value) (ihc : Nat) :
    handleArgsLoop [] index total sql acc ihc = (sql, acc) := rfl

/-- A trailing block of scalar arguments finishes the loop, appending its
`scalarOut` images. -/
theorem handleArgsLoop_scalars_final (l : List Value) (index total : Nat)
    (sql : List Char) (acc : List Value) (ihc : Nat)
    (h : ∀ a ∈ l, isScalarArg a = true) :
    handleArgsLoop l index total sql acc ihc = (sql, acc ++ l.map scalarOut) := by
  have hfull := handleArgsLoop_scalars l [] index total sql acc ihc h
  simpa [handleArgsLoop_nil] using hfull

/-- C2: for every SQL text holding a placeholder whose argument list binds
an empty non-byte slice, the binder returns SQL whose clause text contains
the always-false predicate `0=1` instead of an invalid `IN ()`, with zero
residual arguments. -/
theorem c2_empty_slice_false_sql (sql : List Char) (args : List Value)
    (hq : containsQ sql = true) (hmem : Value.vSlice [] ∈ args) :
    (handleArguments sql args).2 = []
    ∧ List.IsInfix "0=1".data (handleArguments sql args).1 := by
  unfold handleArguments
  exact handleArgsLoop_empty_slice args 0 args.length sql [] 0 hq hmem

/-- C2 (witness): the documented example
`Query("select * from xxx where id in(?)", g.Slice{})`. -/
theorem c2_witness :
    (handleArguments "select * from xxx where id in(?)".data
        [Value.vSlice []]).2 = []
    ∧ List.IsInfix "0=1".data
        (handleArguments "select * from xxx where id in(?)".data
          [Value.vSlice []]).1 :=
  c2_empty_slice_false_sql "select * from xxx where id in(?)".data
    [Value.vSlice []] (by decide) (List.mem_singleton.mpr rfl)

/-- C1 (counterexample): matching placeholder and element counts do not by
themselves skip the expansion: the skip also requires the slice to be the
sole argument.  `SELECT ?,?` with the slice `[1,2]` and a trailing scalar
has placeholder count equal to the element count, yet the binder still
rewrites the first `?` into two placeholders. -/
theorem c1_counterexample :
    countQ "SELECT ?,?".data = [Value.vInt 1, Value.vInt 2].length
    ∧ (handleArguments "SELECT ?,?".data
        [Value.vSlice [Value.vInt 1, Value.vInt 2], Value.vInt 5]).1
      = "SELECT ?,?,?".data
    ∧ (handleArguments "SELECT ?,?".data
        [Value.vSlice [Value.vInt 1, Value.vInt 2], Value.vInt 5]).1
      ≠ "SELECT ?,?".data := by
  refine ⟨by decide, rfl, by decide⟩

/-- C1 (amended): a non-empty slice argument bound to the single `?` placeholder
following the placeholders of the earlier scalar arguments is spliced
element by element into the argument list, and that `?` is rewritten into
exactly N placeholders (N the slice length); when the slice is the only
argument and the SQL's placeholder count already equals N, the rewrite is
skipped and the elements are bound one per existing placeholder. -/
theorem c1_slice_placeholder_expansion (u v : List Char)
    (pre post xs : List Value)
    (hpre : ∀ a ∈ pre, isScalarArg a = true)
    (hpost : ∀ a ∈ post, isScalarArg a = true)
    (hxs : xs ≠ [])
    (hcount : countQ u = pre.length)
    (hnoskip : ¬ (pre = [] ∧ post = []
      ∧ countQ (u ++ '?' :: v) = xs.length)) :
    handleArguments (u ++ '?' :: v) (pre ++ Value.vSlice xs :: post)
      = (u ++ qExpansion xs.length ++ v,
          pre.map scalarOut ++ xs ++ post.map scalarOut)
    ∧ countQ (qExpansion xs.length) = xs.length
    ∧ (countQ (u ++ '?' :: v) = xs.length →
        handleArguments (u ++ '?' :: v) [Value.vSlice xs]
          = (u ++ '?' :: v, xs)) := by
  have hlen : ¬ xs.length = 0 := by
    intro h
    exact hxs (List.length_eq_zero.mp h)
  refine ⟨?_, qExpansion_countQ _ (by omega), ?_⟩
  · unfold handleArguments
    have htotal : (pre ++ Value.vSlice xs :: post).length
        = pre.length + (post.length + 1) := by
      simp
    rw [handleArgsLoop_scalars pre (Value.vSlice xs :: post) 0 _ _ [] 0 hpre]
    simp only [List.nil_append, Nat.zero_add]
    have hexp := expandNthQ_split u v xs.length
    rw [hcount] at hexp
    have hstep : handleArgsLoop (Value.vSlice xs :: post) pre.length
        (pre ++ Value.vSlice xs :: post).length (u ++ '?' :: v)
        (pre.map scalarOut) 0
        = handleArgsLoop post (pre.length + 1)
            (pre ++ Value.vSlice xs :: post).length
            (expandNthQ (u ++ '?' :: v) (pre.length + 1) xs.length).1
            (pre.map scalarOut ++ xs)
            (if (expandNthQ (u ++ '?' :: v) (pre.length + 1) xs.length).2
              then xs.length - 1 else 0) := by
      simp [handleArgsLoop, hlen]
      intro h1 h2
      exfalso
      have hp : pre = [] := List.length_eq_zero.mp (by omega)
      have hq : post = [] := List.length_eq_zero.mp (by omega)
      exact hnoskip ⟨hp, hq, h2⟩
    rw [hstep, hexp]
    simp only [if_pos]
    exact (handleArgsLoop_scalars_final post (pre.length + 1) _ _ _ _
      hpost).trans (by simp [List.append_assoc])
  · intro hc
    unfold handleArguments
    simp [handleArgsLoop, hlen, hc]

/-- C1 (witness): `a=? AND id IN(?)` with a leading scalar and the slice
`[2,3]` expands the second `?` to two placeholders and splices the
elements; the slice alone against the two existing placeholders binds one
element per placeholder with no rewrite. -/
theorem c1_witness :
    handleArguments ("a=? AND id IN(".data ++ '?' :: ")".data)
        [Value.vInt 1, Value.vSlice [Value.vInt 2, Value.vInt 3]]
      = ("a=? AND id IN(".data ++ qExpansion 2 ++ ")".data,
          [Value.vInt 1, Value.vInt 2, Value.vInt 3])
    ∧ countQ (qExpansion 2) = 2
    ∧ handleArguments ("a=? AND id IN(".data ++ '?' :: ")".data)
        [Value.vSlice [Value.vInt 2, Value.vInt 3]]
      = ("a=? AND id IN(".data ++ '?' :: ")".data,
          [Value.vInt 2, Value.vInt 3]) := by
  have h := c1_slice_placeholder_expansion "a=? AND id IN(".data ")".data
    [Value.vInt 1] [] [Value.vInt 2, Value.vInt 3]
    (by intro a ha; rw [List.mem_singleton.mp ha]; rfl)
    (by intro a ha; simp at ha)
    (List.cons_ne_nil _ _) (by decide)
    (by rintro ⟨h1, -, -⟩; exact List.cons_ne_nil _ _ h1)
  exact ⟨h.1, h.2.1, h.2.2 (by decide)⟩

end Gdb
